import Mathlib

/-!
Verification of `src/static/script.js` (tasksite page enhancer).

The script runs once on DOMContentLoaded and performs two independent
enhancements:

1. Flash auto-dismiss: it snapshots all `.flash` elements; if any exist it
   schedules a timer at 4000 ms that applies a fade (transition, opacity 0,
   translateY(-4px)) to every flash and schedules a second timer 400 ms
   later that removes every flash from the document.

2. Completed-task toggle: it looks up the `.task-list` container; if present
   it snapshots the `.task-card.task-done` elements inside; if at least one
   exists it creates a button (type "button", label "Hide completed tasks",
   class "btn-ghost", inline margin-bottom 12px), wires a click listener
   that flips a closured `hidden` boolean, sets each completed card's inline
   display to "none" or "" accordingly and relabels the button, and finally
   inserts the button before the task list in `taskList.parentElement`
   (unguarded: a null parent makes `insertBefore` throw a TypeError).

The embedding below models the DOM fragments the script reads and mutates:
inline styles are CSSOM strings (the empty string means "no inline
declaration", exactly what assigning "" produces), element removal is a
flag on the snapshotted node (the NodeList keeps the reference), and the
task-list parent's child list is represented with the task list as one of
the children, so that `insertBefore` is ordinary list surgery.  Timers are
an explicit queue of (absolute due time, action) pairs; the queue is only
ever [fade@4000] then [remove@4400], so it is sorted by due time and the
event loop fires the head first.
-/

/-- Inline style declarations touched by the script.  Fields are CSSOM
serializations; the empty string means the declaration is absent (this is
also the state produced by assigning `""` in JS, which removes the inline
declaration). -/
structure Style where
  transition : String := ""
  opacity : String := ""
  transform : String := ""
  display : String := ""
  marginBottom : String := ""
deriving DecidableEq, Repr

/-- A `.flash` element as the script sees it: its inline style and whether
`remove()` has detached it from the document (the snapshot retains the
node, so we keep it in the list with a flag). -/
structure FlashElem where
  style : Style := {}
  removed : Bool := false
deriving DecidableEq, Repr

/-- A `.task-card` element inside the task list.  `done` records whether it
carries the `task-done` class; no operation of the script ever changes an
element's classes, so the load-time `completed` NodeList snapshot is
exactly the `done`-filtered card list at any later time. -/
structure TaskCard where
  done : Bool
  style : Style := {}
deriving DecidableEq, Repr

/-- The generated toggle button's element state. -/
structure ButtonElem where
  typeAttr : String := ""
  textContent : String := ""
  className : String := ""
  style : Style := {}
deriving DecidableEq, Repr

/-- A child of the task-list container's parent element, as far as the
script can observe it: the task list itself, some unrelated sibling
(identified by an opaque id), or the inserted toggle button. -/
inductive ChildNode where
  | otherNode (id : Nat)
  | taskListRef
  | buttonRef
deriving DecidableEq, Repr

/-- The parent element of the task list.  `parentElement` of an in-document
element always lists that element among its children, so the child list is
represented coherently by construction: the siblings before the task list,
then the task list, then the siblings after it. -/
structure ParentElem where
  beforeSibs : List Nat := []
  afterSibs : List Nat := []
deriving DecidableEq, Repr

/-- The `.task-list` container: the task cards it directly wraps (the DOM
contract of the renderer) and its optional parent element (`parentElement`
is null only for a detached or root node). -/
structure TaskListElem where
  cards : List TaskCard
  parent : Option ParentElem := none
deriving DecidableEq, Repr

/-- The document as the script queries it at load time:
`querySelectorAll(".flash")` and `querySelector(".task-list")`. -/
structure Page where
  flashes : List FlashElem := []
  taskList : Option TaskListElem := none
deriving DecidableEq, Repr

/-- The two timer callbacks of the flash auto-dismiss flow. -/
inductive TimerAction where
  | fadeOut
  | removeAll
deriving DecidableEq, Repr

/-- A scheduled timer: absolute due time in ms since load, and its action. -/
structure Timer where
  due : Nat
  action : TimerAction
deriving DecidableEq, Repr

/-- The closure state of the toggle click listener: the `hidden` boolean
and the button element it mutates (the same object that was inserted in
the document, so its `textContent` is what the page shows). -/
structure ToggleCtx where
  hidden : Bool
  button : ButtonElem
deriving DecidableEq, Repr

/-- The whole runtime state after the DOMContentLoaded handler ran:
the flash snapshot, the task-list cards (none if there is no task list),
the evolved child list of the task list's parent (none if no task list or
no parent), the pending timer queue, the toggle closure (none if no button
was created) and the uncaught exception, if any, of the handler. -/
structure AppState where
  flashes : List FlashElem
  cards : Option (List TaskCard)
  parentChildren : Option (List ChildNode)
  timers : List Timer
  toggle : Option ToggleCtx
  errorMsg : Option String
deriving DecidableEq, Repr

/-- The parent's child list as rendered, before the script touches it. -/
def initChildren (par : ParentElem) : List ChildNode :=
  par.beforeSibs.map ChildNode.otherNode
    ++ ChildNode.taskListRef :: par.afterSibs.map ChildNode.otherNode

/-- DOM `insertBefore newNode refNode` on a child list: the new node is
spliced in immediately before the reference node.  The `[]` case is where
the DOM would throw NotFoundError; it is unreachable here because the
child list always contains the reference node by construction. -/
def insertBefore (newNode refNode : ChildNode) : List ChildNode → List ChildNode
  | [] => []
  | c :: cs =>
    if c = refNode then newNode :: c :: cs
    else c :: insertBefore newNode refNode cs

/-- The button as created on lines 28-32 of the script: `createElement`,
`type = "button"`, `textContent = "Hide completed tasks"`,
`className = "btn-ghost"`, `style.marginBottom = "12px"`. -/
def newToggleButton : ButtonElem :=
  { typeAttr := "button"
    textContent := "Hide completed tasks"
    className := "btn-ghost"
    style := { marginBottom := "12px" } }

/-- The DOMContentLoaded handler.  First the flash part: if the flash
snapshot is nonempty, schedule the fade timer at 4000 ms.  Then the toggle
part: if a task list exists and contains at least one completed card,
create the button, wire the listener (`hidden := false`), and insert the
button before the task list in `taskList.parentElement`; with a null
parent the final `insertBefore` throws, after everything else already
happened. -/
def load (p : Page) : AppState :=
  let timers := if p.flashes.length ≠ 0 then [{ due := 4000, action := TimerAction.fadeOut }] else []
  match p.taskList with
  | none =>
    { flashes := p.flashes, cards := none, parentChildren := none
      timers := timers, toggle := none, errorMsg := none }
  | some tl =>
    if (tl.cards.filter (fun c => c.done)).length ≠ 0 then
      match tl.parent with
      | none =>
        -- `container` is null: the button is created and its listener wired,
        -- then `container.insertBefore(toggle, taskList)` throws.
        { flashes := p.flashes, cards := some tl.cards, parentChildren := none
          timers := timers
          toggle := some { hidden := false, button := newToggleButton }
          errorMsg := some "TypeError: container is null" }
      | some par =>
        { flashes := p.flashes, cards := some tl.cards
          parentChildren := some (insertBefore ChildNode.buttonRef ChildNode.taskListRef (initChildren par))
          timers := timers
          toggle := some { hidden := false, button := newToggleButton }
          errorMsg := none }
    else
      { flashes := p.flashes, cards := some tl.cards
        parentChildren := tl.parent.map initChildren
        timers := timers, toggle := none, errorMsg := none }

/-- One card's update inside the click listener: completed cards get their
inline display set to "none" when hiding and to "" (clearing the override)
when showing; the listener iterates only over the `completed` snapshot, so
non-completed cards are untouched. -/
def updateCard (hidden : Bool) (card : TaskCard) : TaskCard :=
  if card.done then
    { card with style := { card.style with display := if hidden then "none" else "" } }
  else card

/-- The toggle click listener (lines 35-43): flip `hidden`, set every
completed card's display, relabel the button.  A state without a toggle has
no button in the document, so a click cannot occur there; modelled as a
no-op. -/
def clickToggle (s : AppState) : AppState :=
  match s.toggle with
  | none => s
  | some ctx =>
    let hidden := !ctx.hidden
    { s with
      cards := s.cards.map (fun cs => cs.map (updateCard hidden))
      toggle := some
        { hidden := hidden
          button := { ctx.button with
            textContent := if hidden then "Show completed tasks" else "Hide completed tasks" } } }

/-- `clicks n s`: the state after `n` successive clicks of the toggle. -/
def clicks : Nat → AppState → AppState
  | 0, s => s
  | n + 1, s => clicks n (clickToggle s)

/-- The fade applied to each flash at 4000 ms (lines 9-11):
`transition = "opacity 0.3s ease, transform 0.3s ease"`, `opacity = "0"`,
`transform = "translateY(-4px)"`. -/
def applyFade (st : Style) : Style :=
  { st with
    transition := "opacity 0.3s ease, transform 0.3s ease"
    opacity := "0"
    transform := "translateY(-4px)" }

/-- Firing one timer.  The fade callback styles every flash and schedules
the removal callback 400 ms later; the removal callback calls `remove()`
on every flash. -/
def fireTimer (tm : Timer) (s : AppState) : AppState :=
  match tm.action with
  | TimerAction.fadeOut =>
    { s with
      flashes := s.flashes.map (fun f => { f with style := applyFade f.style })
      timers := s.timers ++ [{ due := tm.due + 400, action := TimerAction.removeAll }] }
  | TimerAction.removeAll =>
    { s with flashes := s.flashes.map (fun f => { f with removed := true }) }

/-- The event loop up to instant `t`: fire the earliest pending timer while
it is due.  The timer queue is kept in due-time order (the only schedule is
the fade at 4000 ms, which enqueues the removal at 4400 ms), so the
earliest-due timer is the head.  Fuel bounds the number of firings; each
fade enqueues one removal, so `2 * length + 2` always suffices. -/
def runTimers : Nat → Nat → AppState → AppState
  | 0, _, s => s
  | fuel + 1, t, s =>
    match s.timers with
    | [] => s
    | tm :: rest =>
      if tm.due ≤ t then runTimers fuel t (fireTimer tm { s with timers := rest })
      else s

/-- The state at instant `t` (ms since load): all timers due by `t` have
fired, in due order. -/
def stateAt (t : Nat) (s : AppState) : AppState :=
  runTimers (2 * s.timers.length + 2) t s

/-- There is a task list and it contains at least one completed card. -/
def completedExists (p : Page) : Prop :=
  ∃ tl, p.taskList = some tl ∧ ∃ c ∈ tl.cards, c.done = true

instance (p : Page) : Decidable (completedExists p) := by
  unfold completedExists
  cases p.taskList with
  | none => exact isFalse (by simp)
  | some tl => exact decidable_of_iff (∃ c ∈ tl.cards, c.done = true) (by simp)

/-- The toggle button is present in the document: the task-list parent's
child list contains it. -/
def buttonInserted (s : AppState) : Prop :=
  ∃ cs, s.parentChildren = some cs ∧ ChildNode.buttonRef ∈ cs

instance (s : AppState) : Decidable (buttonInserted s) := by
  unfold buttonInserted
  cases s.parentChildren with
  | none => exact isFalse (by simp)
  | some cs => exact decidable_of_iff (ChildNode.buttonRef ∈ cs) (by simp)

/-- The button's visible label, when a button exists. -/
def toggleLabel (s : AppState) : Option String :=
  s.toggle.map (fun ctx => ctx.button.textContent)

/-- The `hidden` closure boolean, when a toggle exists. -/
def hiddenFlag (s : AppState) : Option Bool :=
  s.toggle.map (fun ctx => ctx.hidden)

/-- Every completed card's inline display equals `d`. -/
def allDoneDisplay (s : AppState) (d : String) : Prop :=
  ∀ cs, s.cards = some cs → ∀ c ∈ cs, c.done = true → c.style.display = d

/-- The state's card list contains a completed card. -/
def hasDoneCard (s : AppState) : Prop :=
  ∃ cs, s.cards = some cs ∧ ∃ c ∈ cs, c.done = true

/-- The invariant tying the label, the `hidden` flag and the completed
cards' inline display together. -/
def toggleInv (s : AppState) : Prop :=
  ∀ ctx, s.toggle = some ctx →
    (ctx.button.textContent = "Show completed tasks" ↔ ctx.hidden = true) ∧
    (ctx.hidden = true ↔ allDoneDisplay s "none") ∧
    (ctx.button.textContent = "Hide completed tasks" ↔
      (ctx.hidden = false ∧ allDoneDisplay s ""))

/-- The positionwise frame relation of claim C5: same number of cards, the
`done` flag never changes, and a card not completed at load is entirely
unchanged (style and identity), hence also keeps its position. -/
def framePreserved (orig cur : List TaskCard) : Prop :=
  cur.length = orig.length ∧
  ∀ i (h1 : i < orig.length) (h2 : i < cur.length),
    (cur.get ⟨i, h2⟩).done = (orig.get ⟨i, h1⟩).done ∧
    ((orig.get ⟨i, h1⟩).done = false → cur.get ⟨i, h2⟩ = orig.get ⟨i, h1⟩) ∧
    (cur.get ⟨i, h2⟩ ≠ orig.get ⟨i, h1⟩ → (orig.get ⟨i, h1⟩).done = true)

/-! ### Basic lemmas about `load` -/

theorem load_flashes (p : Page) : (load p).flashes = p.flashes := by
  unfold load
  cases p.taskList with
  | none => simp
  | some tl =>
    by_cases hc : (tl.cards.filter (fun c => c.done)).length ≠ 0
    · cases hp : tl.parent <;> simp [hc, hp]
    · simp [hc]

theorem load_cards (p : Page) :
    (load p).cards = p.taskList.map (fun tl => tl.cards) := by
  unfold load
  cases p.taskList with
  | none => simp
  | some tl =>
    by_cases hc : (tl.cards.filter (fun c => c.done)).length ≠ 0
    · cases hp : tl.parent <;> simp [hc, hp]
    · simp [hc]

theorem load_timers_of_ne (p : Page) (h : p.flashes ≠ []) :
    (load p).timers = [{ due := 4000, action := TimerAction.fadeOut }] := by
  have hl : p.flashes.length ≠ 0 := by
    simpa [List.length_eq_zero] using h
  unfold load
  cases p.taskList with
  | none => simp [hl]
  | some tl =>
    by_cases hc : (tl.cards.filter (fun c => c.done)).length ≠ 0
    · cases hp : tl.parent <;> simp [hl, hc, hp]
    · simp [hl, hc]

theorem load_timers_of_nil (p : Page) (h : p.flashes = []) :
    (load p).timers = [] := by
  unfold load
  cases p.taskList with
  | none => simp [h]
  | some tl =>
    by_cases hc : (tl.cards.filter (fun c => c.done)).length ≠ 0
    · cases hp : tl.parent <;> simp [h, hc, hp]
    · simp [h, hc]

theorem load_toggle_isSome (p : Page) :
    (load p).toggle.isSome = true ↔ completedExists p := by
  unfold load completedExists
  cases p.taskList with
  | none => simp
  | some tl =>
    by_cases hc : (tl.cards.filter (fun c => c.done)).length ≠ 0
    · have hne : tl.cards.filter (fun c => c.done) ≠ [] := by
        intro hnil
        exact hc (by rw [hnil]; rfl)
      obtain ⟨c, hcm⟩ := List.exists_mem_of_ne_nil _ hne
      obtain ⟨hmem, hdone⟩ := List.mem_filter.mp hcm
      cases hp : tl.parent <;> simp [hc, hp] <;> exact ⟨c, hmem, hdone⟩
    · have hlen : (tl.cards.filter (fun c => c.done)).length = 0 := not_not.mp hc
      have hnil : tl.cards.filter (fun c => c.done) = [] := List.length_eq_zero.mp hlen
      have hnone : ∀ c ∈ tl.cards, ¬ c.done = true := by
        intro c hcmem
        have := List.filter_eq_nil_iff.mp hnil c hcmem
        simpa using this
      simp [hc]
      intro c hcmem
      have := hnone c hcmem
      simp_all

/-! ### Basic lemmas about `clickToggle` and `clicks` -/

theorem clickToggle_of_toggle (s : AppState) (ctx : ToggleCtx)
    (h : s.toggle = some ctx) :
    clickToggle s =
      { s with
        cards := s.cards.map (fun cs => cs.map (updateCard (!ctx.hidden)))
        toggle := some
          { hidden := !ctx.hidden
            button := { ctx.button with
              textContent :=
                if !ctx.hidden then "Show completed tasks"
                else "Hide completed tasks" } } } := by
  unfold clickToggle
  rw [h]

theorem clickToggle_flashes (s : AppState) :
    (clickToggle s).flashes = s.flashes := by
  unfold clickToggle
  cases hs : s.toggle <;> rfl

theorem clickToggle_timers (s : AppState) :
    (clickToggle s).timers = s.timers := by
  unfold clickToggle
  cases hs : s.toggle <;> rfl

theorem clickToggle_parentChildren (s : AppState) :
    (clickToggle s).parentChildren = s.parentChildren := by
  unfold clickToggle
  cases hs : s.toggle <;> rfl

theorem clickToggle_errorMsg (s : AppState) :
    (clickToggle s).errorMsg = s.errorMsg := by
  unfold clickToggle
  cases hs : s.toggle <;> rfl

theorem clicks_flashes (n : Nat) (s : AppState) :
    (clicks n s).flashes = s.flashes := by
  induction n generalizing s with
  | zero => rfl
  | succ n ih => rw [clicks, ih, clickToggle_flashes]

theorem clicks_timers (n : Nat) (s : AppState) :
    (clicks n s).timers = s.timers := by
  induction n generalizing s with
  | zero => rfl
  | succ n ih => rw [clicks, ih, clickToggle_timers]

/-! ### Timer execution lemmas -/

theorem stateAt_of_no_timers (s : AppState) (h : s.timers = []) (t : Nat) :
    stateAt t s = s := by
  obtain ⟨fl, cs, pc, tms, tg, er⟩ := s
  have h' : tms = [] := h
  subst h'
  simp [stateAt, runTimers]

theorem stateAt_before_fade (s : AppState)
    (h : s.timers = [{ due := 4000, action := TimerAction.fadeOut }])
    (t : Nat) (ht : t < 4000) :
    stateAt t s = s := by
  obtain ⟨fl, cs, pc, tms, tg, er⟩ := s
  have h' : tms = [{ due := 4000, action := TimerAction.fadeOut }] := h
  subst h'
  have h0 : ¬ (4000 ≤ t) := by omega
  simp [stateAt, runTimers, h0]

theorem stateAt_after_fade (s : AppState)
    (h : s.timers = [{ due := 4000, action := TimerAction.fadeOut }])
    (t : Nat) (h1 : 4000 ≤ t) (h2 : t < 4400) :
    stateAt t s =
      { s with
        flashes := s.flashes.map (fun f => { f with style := applyFade f.style })
        timers := [{ due := 4400, action := TimerAction.removeAll }] } := by
  obtain ⟨fl, cs, pc, tms, tg, er⟩ := s
  have h' : tms = [{ due := 4000, action := TimerAction.fadeOut }] := h
  subst h'
  have h2' : ¬ (4400 ≤ t) := by omega
  simp [stateAt, runTimers, fireTimer, h1, h2']

theorem stateAt_after_removal (s : AppState)
    (h : s.timers = [{ due := 4000, action := TimerAction.fadeOut }])
    (t : Nat) (h1 : 4400 ≤ t) :
    stateAt t s =
      { s with
        flashes := s.flashes.map
          (fun f => { style := applyFade f.style, removed := true })
        timers := [] } := by
  obtain ⟨fl, cs, pc, tms, tg, er⟩ := s
  have h' : tms = [{ due := 4000, action := TimerAction.fadeOut }] := h
  subst h'
  have h0 : 4000 ≤ t := by omega
  simp [stateAt, runTimers, fireTimer, h0, h1, Function.comp]

/-! ### Case characterizations of `load` -/

theorem filter_done_length_ne_zero_iff (cards : List TaskCard) :
    (cards.filter (fun c => c.done)).length ≠ 0 ↔ ∃ c ∈ cards, c.done = true := by
  rw [Ne, List.length_eq_zero, List.filter_eq_nil_iff]
  push_neg
  simp

theorem load_eq_of_no_taskList (p : Page) (h : p.taskList = none) :
    load p =
      { flashes := p.flashes, cards := none, parentChildren := none
        timers := if p.flashes.length ≠ 0 then [{ due := 4000, action := TimerAction.fadeOut }] else []
        toggle := none, errorMsg := none } := by
  unfold load
  rw [h]

theorem load_eq_of_no_completed (p : Page) (tl : TaskListElem)
    (h : p.taskList = some tl) (hz : ∀ c ∈ tl.cards, c.done = false) :
    load p =
      { flashes := p.flashes, cards := some tl.cards
        parentChildren := tl.parent.map initChildren
        timers := if p.flashes.length ≠ 0 then [{ due := 4000, action := TimerAction.fadeOut }] else []
        toggle := none, errorMsg := none } := by
  have hnil : tl.cards.filter (fun c => c.done) = [] :=
    List.filter_eq_nil_iff.mpr (fun c hc => by simp [hz c hc])
  unfold load
  rw [h]
  simp [hnil]

theorem load_eq_of_completed_parent (p : Page) (tl : TaskListElem) (par : ParentElem)
    (h : p.taskList = some tl) (hp : tl.parent = some par)
    (hd : ∃ c ∈ tl.cards, c.done = true) :
    load p =
      { flashes := p.flashes, cards := some tl.cards
        parentChildren := some (insertBefore ChildNode.buttonRef ChildNode.taskListRef (initChildren par))
        timers := if p.flashes.length ≠ 0 then [{ due := 4000, action := TimerAction.fadeOut }] else []
        toggle := some { hidden := false, button := newToggleButton }
        errorMsg := none } := by
  have hc : (tl.cards.filter (fun c => c.done)).length ≠ 0 :=
    (filter_done_length_ne_zero_iff tl.cards).mpr hd
  unfold load
  rw [h]
  simp [hc, hp]

theorem load_eq_of_completed_no_parent (p : Page) (tl : TaskListElem)
    (h : p.taskList = some tl) (hp : tl.parent = none)
    (hd : ∃ c ∈ tl.cards, c.done = true) :
    load p =
      { flashes := p.flashes, cards := some tl.cards, parentChildren := none
        timers := if p.flashes.length ≠ 0 then [{ due := 4000, action := TimerAction.fadeOut }] else []
        toggle := some { hidden := false, button := newToggleButton }
        errorMsg := some "TypeError: container is null" } := by
  have hc : (tl.cards.filter (fun c => c.done)).length ≠ 0 :=
    (filter_done_length_ne_zero_iff tl.cards).mpr hd
  unfold load
  rw [h]
  simp [hc, hp]

/-! ### `insertBefore` and `initChildren` lemmas -/

theorem buttonRef_not_mem_initChildren (par : ParentElem) :
    ChildNode.buttonRef ∉ initChildren par := by
  unfold initChildren
  simp

theorem taskListRef_not_mem_map_otherNode (ids : List Nat) :
    ChildNode.taskListRef ∉ ids.map ChildNode.otherNode := by
  simp

theorem insertBefore_append_of_not_mem (newNode refNode : ChildNode)
    (pre post : List ChildNode) (h : refNode ∉ pre) :
    insertBefore newNode refNode (pre ++ refNode :: post) =
      pre ++ newNode :: refNode :: post := by
  induction pre with
  | nil => simp [insertBefore]
  | cons c cs ih =>
    have hc : c ≠ refNode := fun he => h (by simp [he])
    have hcs : refNode ∉ cs := fun hm => h (by simp [hm])
    simp [insertBefore, hc, ih hcs]

theorem insertBefore_initChildren (par : ParentElem) :
    insertBefore ChildNode.buttonRef ChildNode.taskListRef (initChildren par) =
      par.beforeSibs.map ChildNode.otherNode
        ++ ChildNode.buttonRef :: ChildNode.taskListRef
          :: par.afterSibs.map ChildNode.otherNode := by
  unfold initChildren
  exact insertBefore_append_of_not_mem _ _ _ _
    (taskListRef_not_mem_map_otherNode par.beforeSibs)

/-! ### `updateCard` and click lemmas -/

theorem clickToggle_of_none (s : AppState) (h : s.toggle = none) :
    clickToggle s = s := by
  unfold clickToggle
  rw [h]

theorem updateCard_done_flag (b : Bool) (c : TaskCard) :
    (updateCard b c).done = c.done := by
  unfold updateCard
  split <;> rfl

theorem updateCard_of_not_done (b : Bool) (c : TaskCard) (h : c.done = false) :
    updateCard b c = c := by
  simp [updateCard, h]

theorem updateCard_display_of_done (b : Bool) (c : TaskCard) (h : c.done = true) :
    (updateCard b c).style.display = if b then "none" else "" := by
  simp [updateCard, h]

theorem allDone_display_map (cs : List TaskCard) (b : Bool) :
    ∀ c ∈ cs.map (updateCard b), c.done = true →
      c.style.display = if b then "none" else "" := by
  intro c hc hdone
  obtain ⟨c0, _, rfl⟩ := List.mem_map.mp hc
  have h0 : c0.done = true := by rwa [updateCard_done_flag] at hdone
  exact updateCard_display_of_done b c0 h0

theorem clicks_hiddenFlag (n : Nat) (s : AppState) (ctx : ToggleCtx)
    (h : s.toggle = some ctx) :
    hiddenFlag (clicks n s) =
      some (if n % 2 = 1 then !ctx.hidden else ctx.hidden) := by
  induction n generalizing s ctx with
  | zero => simp [clicks, hiddenFlag, h]
  | succ n ih =>
    rw [clicks]
    have h' : (clickToggle s).toggle = some
        { hidden := !ctx.hidden
          button := { ctx.button with
            textContent :=
              if !ctx.hidden then "Show completed tasks"
              else "Hide completed tasks" } } := by
      rw [clickToggle_of_toggle s ctx h]
    rw [ih (clickToggle s) _ h']
    rcases Nat.mod_two_eq_zero_or_one n with hm | hm
    · have hm' : (n + 1) % 2 = 1 := by omega
      simp [hm, hm']
    · have hm' : (n + 1) % 2 = 0 := by omega
      simp [hm, hm']

/-! ### Example inputs used by the witnesses -/

def examplePendingCard : TaskCard := { done := false }

def exampleDoneCard : TaskCard := { done := true }

def exampleParent : ParentElem := { beforeSibs := [0], afterSibs := [1] }

def exampleTaskList : TaskListElem :=
  { cards := [examplePendingCard, exampleDoneCard], parent := some exampleParent }

def examplePage : Page :=
  { flashes := [{}], taskList := some exampleTaskList }

def emptyPage : Page := {}

/-! ### Claim C1 -/

/-- C1: the toggle button is created if and only if at least one task-card
element marked done exists inside the task-list container at load time:
`load` produces a toggle exactly when a completed card exists, and when the
task-list container is absent, or present with zero completed cards, no
button is inserted into the document. -/
theorem toggle_created_iff_completed (p : Page) :
    ((load p).toggle.isSome = true ↔ completedExists p) ∧
    ((p.taskList = none ∨
        ∃ tl, p.taskList = some tl ∧ ∀ c ∈ tl.cards, c.done = false) →
      ¬ buttonInserted (load p)) := by
  refine ⟨load_toggle_isSome p, ?_⟩
  rintro (h | ⟨tl, h, hz⟩)
  · rw [load_eq_of_no_taskList p h]
    rintro ⟨cs, hcs, _⟩
    simp at hcs
  · rw [load_eq_of_no_completed p tl h hz]
    rintro ⟨cs, hcs, hmem⟩
    cases hp : tl.parent with
    | none => rw [hp] at hcs; simp at hcs
    | some par =>
      rw [hp] at hcs
      simp only [Option.map_some] at hcs
      obtain rfl : initChildren par = cs := by simpa using hcs
      exact buttonRef_not_mem_initChildren par hmem

/-- C1 witness: on the empty page no button is created or inserted, and the
iff instance holds there. -/
theorem toggle_created_iff_completed_witness :
    ¬ buttonInserted (load emptyPage) ∧
    ((load emptyPage).toggle.isSome = true ↔ completedExists emptyPage) :=
  ⟨(toggle_created_iff_completed emptyPage).2 (Or.inl rfl),
    (toggle_created_iff_completed emptyPage).1⟩

/-! ### Claim C6 -/

/-- C6: when at least one completed task exists at load, exactly one button
element is inserted, as the immediate preceding sibling of the task-list
container within the same parent, with initial label "Hide completed
tasks", type "button", and the ghost-button style marker class
(`btn-ghost`, the styling class of the renderer). -/
theorem button_insertion_shape (p : Page) (tl : TaskListElem) (par : ParentElem)
    (h : p.taskList = some tl) (hp : tl.parent = some par)
    (hd : ∃ c ∈ tl.cards, c.done = true) :
    ∃ ctx, (load p).toggle = some ctx ∧
      ctx.button.textContent = "Hide completed tasks" ∧
      ctx.button.className = "btn-ghost" ∧
      ctx.button.typeAttr = "button" ∧
      ∃ pre post,
        (load p).parentChildren =
          some (pre ++ ChildNode.buttonRef :: ChildNode.taskListRef :: post) ∧
        ChildNode.buttonRef ∉ pre ∧ ChildNode.buttonRef ∉ post := by
  rw [load_eq_of_completed_parent p tl par h hp hd]
  refine ⟨{ hidden := false, button := newToggleButton }, rfl, rfl, rfl, rfl,
    par.beforeSibs.map ChildNode.otherNode,
    par.afterSibs.map ChildNode.otherNode, ?_, ?_, ?_⟩
  · rw [insertBefore_initChildren par]
  · simp
  · simp

/-- C6 witness: the concrete page with one completed card and a parent with
siblings on both sides gets exactly one button, right before the task
list. -/
theorem button_insertion_shape_witness :
    ∃ ctx, (load examplePage).toggle = some ctx ∧
      ctx.button.textContent = "Hide completed tasks" ∧
      ctx.button.className = "btn-ghost" ∧
      ctx.button.typeAttr = "button" ∧
      ∃ pre post,
        (load examplePage).parentChildren =
          some (pre ++ ChildNode.buttonRef :: ChildNode.taskListRef :: post) ∧
        ChildNode.buttonRef ∉ pre ∧ ChildNode.buttonRef ∉ post :=
  button_insertion_shape examplePage exampleTaskList exampleParent rfl rfl
    ⟨exampleDoneCard, by simp [exampleTaskList], rfl⟩

/-! ### Claim C10 -/

/-- C10: the insertion reads `taskList.parentElement` and calls
`insertBefore` on it without a null check; under the precondition that the
task-list container has a parent element the handler raises no error, and
conversely the only way the handler errors is exactly this dereference: a
present task list with a completed card but a null parent. -/
theorem unguarded_parent_dereference (p : Page) :
    ((∀ tl, p.taskList = some tl → tl.parent ≠ none) →
      (load p).errorMsg = none) ∧
    ((load p).errorMsg ≠ none →
      ∃ tl, p.taskList = some tl ∧ tl.parent = none ∧
        ∃ c ∈ tl.cards, c.done = true) := by
  constructor
  · intro hpar
    cases htl : p.taskList with
    | none => rw [load_eq_of_no_taskList p htl]
    | some tl =>
      by_cases hd : ∃ c ∈ tl.cards, c.done = true
      · cases hp : tl.parent with
        | none => exact absurd hp (hpar tl htl)
        | some par => rw [load_eq_of_completed_parent p tl par htl hp hd]
      · have hz : ∀ c ∈ tl.cards, c.done = false := by
          intro c hc
          by_contra hcd
          exact hd ⟨c, hc, by simpa using hcd⟩
        rw [load_eq_of_no_completed p tl htl hz]
  · intro herr
    cases htl : p.taskList with
    | none => exact absurd (by rw [load_eq_of_no_taskList p htl]) herr
    | some tl =>
      by_cases hd : ∃ c ∈ tl.cards, c.done = true
      · cases hp : tl.parent with
        | none => exact ⟨tl, rfl, hp, hd⟩
        | some par =>
          exact absurd (by rw [load_eq_of_completed_parent p tl par htl hp hd]) herr
      · have hz : ∀ c ∈ tl.cards, c.done = false := by
          intro c hc
          by_contra hcd
          exact hd ⟨c, hc, by simpa using hcd⟩
        exact absurd (by rw [load_eq_of_no_completed p tl htl hz]) herr

/-- C10 witness: on the concrete page whose task list has a parent, the
handler finishes without error. -/
theorem unguarded_parent_dereference_witness :
    (load examplePage).errorMsg = none :=
  (unguarded_parent_dereference examplePage).1
    (fun tl htl => by
      obtain rfl : exampleTaskList = tl := by simpa [examplePage] using htl
      simp [exampleTaskList])

/-! ### Claim C3 -/

/-- C3: with N ≥ 1 flash elements at load, 4000 ms after load every flash
element carries inline opacity "0", the translateY transform, and the
300 ms eased transition on opacity and transform; 400 ms after the fade
begins (4400 ms total) all N flash elements are removed from the
document (the snapshot keeps its N entries, each flagged removed). -/
theorem flash_auto_dismiss_timing (p : Page) (h : p.flashes ≠ []) :
    ((stateAt 4000 (load p)).flashes.length = p.flashes.length ∧
      ∀ f ∈ (stateAt 4000 (load p)).flashes,
        f.style.opacity = "0" ∧
        f.style.transform = "translateY(-4px)" ∧
        f.style.transition = "opacity 0.3s ease, transform 0.3s ease") ∧
    ((stateAt 4400 (load p)).flashes.length = p.flashes.length ∧
      ∀ f ∈ (stateAt 4400 (load p)).flashes, f.removed = true) := by
  have hts := load_timers_of_ne p h
  constructor
  · rw [stateAt_after_fade (load p) hts 4000 (le_refl _) (by omega), load_flashes]
    refine ⟨by simp, ?_⟩
    intro f hf
    obtain ⟨f0, _, rfl⟩ := List.mem_map.mp hf
    simp [applyFade]
  · rw [stateAt_after_removal (load p) hts 4400 (le_refl _), load_flashes]
    refine ⟨by simp, ?_⟩
    intro f hf
    obtain ⟨f0, _, rfl⟩ := List.mem_map.mp hf
    rfl

/-- C3 witness: the page with a single flash element gets it faded at
4000 ms and removed at 4400 ms. -/
theorem flash_auto_dismiss_timing_witness :
    (stateAt 4400 (load examplePage)).flashes.length =
        examplePage.flashes.length ∧
    ∀ f ∈ (stateAt 4400 (load examplePage)).flashes, f.removed = true :=
  (flash_auto_dismiss_timing examplePage (by decide)).2

/-! ### Claim C7 -/

/-- C7: with zero flash elements at load, no timers are scheduled and the
flash-dismiss part of the script performs no DOM mutation: the flash list
(trivially) and the task cards are exactly as rendered, and the state is
unchanged at every later instant. -/
theorem no_flash_no_timer_no_mutation (p : Page) (h : p.flashes = []) :
    (load p).timers = [] ∧
    (load p).flashes = p.flashes ∧
    (load p).cards = p.taskList.map (fun tl => tl.cards) ∧
    ∀ t, stateAt t (load p) = load p := by
  refine ⟨load_timers_of_nil p h, load_flashes p, load_cards p, ?_⟩
  intro t
  exact stateAt_of_no_timers (load p) (load_timers_of_nil p h) t

/-- C7 witness: the empty page schedules nothing and never changes. -/
theorem no_flash_no_timer_no_mutation_witness :
    (load emptyPage).timers = [] ∧
    (load emptyPage).flashes = emptyPage.flashes ∧
    (load emptyPage).cards = emptyPage.taskList.map (fun tl => tl.cards) ∧
    ∀ t, stateAt t (load emptyPage) = load emptyPage :=
  no_flash_no_timer_no_mutation emptyPage rfl

/-! ### Claim C8 -/

/-- C8: once scheduled (at least one flash at load) the dismiss sequence
runs to completion regardless of any number of toggle clicks: at every
instant from 4400 ms on, every flash of the load-time set is removed with
the fade styles applied; and the click handler, the only other operation
of the script, leaves the timer queue and the flash elements untouched, so
nothing can cancel or pause the sequence. -/
theorem flash_dismiss_runs_to_completion (p : Page) (h : p.flashes ≠ []) :
    (∀ n t, 4400 ≤ t →
      (stateAt t (clicks n (load p))).flashes.length = p.flashes.length ∧
      ∀ f ∈ (stateAt t (clicks n (load p))).flashes,
        f.removed = true ∧ f.style.opacity = "0") ∧
    (∀ s : AppState,
      (clickToggle s).timers = s.timers ∧ (clickToggle s).flashes = s.flashes) := by
  constructor
  · intro n t ht
    have hts : (clicks n (load p)).timers =
        [{ due := 4000, action := TimerAction.fadeOut }] := by
      rw [clicks_timers, load_timers_of_ne p h]
    rw [stateAt_after_removal (clicks n (load p)) hts t ht, clicks_flashes,
      load_flashes]
    refine ⟨by simp, ?_⟩
    intro f hf
    obtain ⟨f0, _, rfl⟩ := List.mem_map.mp hf
    exact ⟨rfl, rfl⟩
  · intro s
    exact ⟨clickToggle_timers s, clickToggle_flashes s⟩

/-- C8 witness: with one flash and three interleaved clicks, everything is
removed at 4400 ms, and a concrete click leaves timers and flashes as they
were. -/
theorem flash_dismiss_runs_to_completion_witness :
    ((stateAt 4400 (clicks 3 (load examplePage))).flashes.length =
        examplePage.flashes.length ∧
      ∀ f ∈ (stateAt 4400 (clicks 3 (load examplePage))).flashes,
        f.removed = true ∧ f.style.opacity = "0") ∧
    ((clickToggle (load examplePage)).timers = (load examplePage).timers ∧
      (clickToggle (load examplePage)).flashes = (load examplePage).flashes) :=
  ⟨(flash_dismiss_runs_to_completion examplePage (by decide)).1 3 4400 (le_refl _),
    (flash_dismiss_runs_to_completion examplePage (by decide)).2 (load examplePage)⟩

/-! ### Claim C2 -/

/-- C2: the toggle is a two-state machine with initial state shown
(`hidden = false`): a click in state shown sets every completed card's
inline display to "none" and relabels the button "Show completed tasks"; a
click in state hidden clears the display override (inline display "")
and relabels it "Hide completed tasks"; these are the only transitions and
the `hidden` flag alternates with period two for arbitrarily many
clicks. -/
theorem toggle_two_state_machine (s : AppState) (ctx : ToggleCtx)
    (h : s.toggle = some ctx) :
    (ctx.hidden = false →
      hiddenFlag (clickToggle s) = some true ∧
      toggleLabel (clickToggle s) = some "Show completed tasks" ∧
      allDoneDisplay (clickToggle s) "none") ∧
    (ctx.hidden = true →
      hiddenFlag (clickToggle s) = some false ∧
      toggleLabel (clickToggle s) = some "Hide completed tasks" ∧
      allDoneDisplay (clickToggle s) "") ∧
    (∀ n, hiddenFlag (clicks n s) =
      some (if n % 2 = 1 then !ctx.hidden else ctx.hidden)) := by
  refine ⟨?_, ?_, fun n => clicks_hiddenFlag n s ctx h⟩
  · intro hh
    rw [clickToggle_of_toggle s ctx h]
    refine ⟨by simp [hiddenFlag, hh], by simp [toggleLabel, hh], ?_⟩
    intro cs hcs c hc hdone
    simp only [hh, Bool.not_false] at hcs
    obtain ⟨l, _, rfl⟩ := Option.map_eq_some'.mp hcs
    simpa using allDone_display_map l true c hc hdone
  · intro hh
    rw [clickToggle_of_toggle s ctx h]
    refine ⟨by simp [hiddenFlag, hh], by simp [toggleLabel, hh], ?_⟩
    intro cs hcs c hc hdone
    simp only [hh, Bool.not_true] at hcs
    obtain ⟨l, _, rfl⟩ := Option.map_eq_some'.mp hcs
    simpa using allDone_display_map l false c hc hdone

/-- C2 witness: on the loaded example page (state shown), one click hides
every completed card and relabels the button, and the flag alternates. -/
theorem toggle_two_state_machine_witness :
    (hiddenFlag (clickToggle (load examplePage)) = some true ∧
      toggleLabel (clickToggle (load examplePage)) = some "Show completed tasks" ∧
      allDoneDisplay (clickToggle (load examplePage)) "none") ∧
    hiddenFlag (clicks 5 (load examplePage)) = some true := by
  have h : (load examplePage).toggle =
      some { hidden := false, button := newToggleButton } := by
    rw [load_eq_of_completed_parent examplePage exampleTaskList exampleParent rfl rfl
      ⟨exampleDoneCard, by simp [exampleTaskList], rfl⟩]
  refine ⟨(toggle_two_state_machine (load examplePage) _ h).1 rfl, ?_⟩
  have := (toggle_two_state_machine (load examplePage) _ h).2.2 5
  simpa using this

/-! ### Claim C9 -/

theorem allDoneDisplay_clickToggle (s : AppState) (ctx : ToggleCtx)
    (h : s.toggle = some ctx) :
    allDoneDisplay (clickToggle s) (if !ctx.hidden then "none" else "") := by
  rw [clickToggle_of_toggle s ctx h]
  intro cs hcs c hc hdone
  obtain ⟨l, _, rfl⟩ := Option.map_eq_some'.mp hcs
  exact allDone_display_map l (!ctx.hidden) c hc hdone

theorem hasDoneCard_clickToggle (s : AppState) (hd : hasDoneCard s) :
    hasDoneCard (clickToggle s) := by
  obtain ⟨cs, hcs, c, hc, hdone⟩ := hd
  cases h : s.toggle with
  | none => rw [clickToggle_of_none s h]; exact ⟨cs, hcs, c, hc, hdone⟩
  | some ctx =>
    rw [clickToggle_of_toggle s ctx h]
    refine ⟨cs.map (updateCard (!ctx.hidden)), by simp [hcs],
      updateCard (!ctx.hidden) c, List.mem_map_of_mem _ hc, ?_⟩
    rw [updateCard_done_flag]
    exact hdone

/-- C9: every click of the toggle (re)establishes — hence preserves — the
invariant: the label is "Show completed tasks" exactly when the `hidden`
flag is true, which (given a completed card exists, as it does whenever the
button was created) holds exactly when every completed card's inline
display is "none"; the label is "Hide completed tasks" exactly when the
flag is false and every completed card's display override is cleared.
The completed-card set itself is also preserved. -/
theorem click_toggle_invariant (s : AppState) (hd : hasDoneCard s) :
    toggleInv (clickToggle s) ∧ hasDoneCard (clickToggle s) := by
  refine ⟨?_, hasDoneCard_clickToggle s hd⟩
  cases h : s.toggle with
  | none =>
    rw [clickToggle_of_none s h]
    intro ctx hctx
    rw [h] at hctx
    exact absurd hctx (by simp)
  | some ctx =>
    have hdisp := allDoneDisplay_clickToggle s ctx h
    have hd' := hasDoneCard_clickToggle s hd
    intro ctx' hctx'
    have hctx2 : (clickToggle s).toggle = some
        { hidden := !ctx.hidden
          button := { ctx.button with
            textContent :=
              if !ctx.hidden then "Show completed tasks"
              else "Hide completed tasks" } } := by
      rw [clickToggle_of_toggle s ctx h]
    rw [hctx2] at hctx'
    have hctxeq := (Option.some.inj hctx').symm
    have hhid : ctx'.hidden = !ctx.hidden := by rw [hctxeq]
    have htc : ctx'.button.textContent =
        if !ctx.hidden then "Show completed tasks" else "Hide completed tasks" := by
      rw [hctxeq]
    cases hb : ctx.hidden with
    | false =>
      have hA1 : ctx'.button.textContent = "Show completed tasks" := by
        rw [htc]
        simp [hb]
      have hA2 : ctx'.hidden = true := by
        rw [hhid]
        simp [hb]
      have hA3 : allDoneDisplay (clickToggle s) "none" := by
        simpa [hb] using hdisp
      have hA4 : ctx'.button.textContent ≠ "Hide completed tasks" := by
        rw [hA1]
        decide
      refine ⟨iff_of_true hA1 hA2, iff_of_true hA2 hA3, iff_of_false hA4 ?_⟩
      rintro ⟨hfl, _⟩
      rw [hA2] at hfl
      exact absurd hfl (by decide)
    | true =>
      obtain ⟨cs1, hcs1, c1, hc1, hdone1⟩ := hd'
      have hB1 : ctx'.button.textContent = "Hide completed tasks" := by
        rw [htc]
        simp [hb]
      have hB2 : ctx'.hidden = false := by
        rw [hhid]
        simp [hb]
      have hB3 : allDoneDisplay (clickToggle s) "" := by
        simpa [hb] using hdisp
      have hc1disp : c1.style.display = "" := hB3 cs1 hcs1 c1 hc1 hdone1
      have hB4 : ctx'.button.textContent ≠ "Show completed tasks" := by
        rw [hB1]
        decide
      have hB5 : ¬ ctx'.hidden = true := by
        rw [hB2]
        decide
      have hBne : ¬ allDoneDisplay (clickToggle s) "none" := by
        intro hall
        have h1 := hall cs1 hcs1 c1 hc1 hdone1
        rw [hc1disp] at h1
        exact absurd h1 (by decide)
      exact ⟨iff_of_false hB4 hB5, iff_of_false hB5 hBne,
        iff_of_true hB1 ⟨hB2, hB3⟩⟩

/-- C9 witness: one click on the loaded example page establishes the
invariant, and the completed card is still there. -/
theorem click_toggle_invariant_witness :
    toggleInv (clickToggle (load examplePage)) ∧
    hasDoneCard (clickToggle (load examplePage)) :=
  click_toggle_invariant (load examplePage)
    ⟨exampleTaskList.cards, by rw [load_cards]; rfl,
      exampleDoneCard, by simp [exampleTaskList], rfl⟩

/-! ### Claim C5 -/

theorem framePreserved_refl (cs : List TaskCard) : framePreserved cs cs :=
  ⟨rfl, fun _ _ _ => ⟨rfl, fun _ => rfl, fun hne => absurd rfl hne⟩⟩

theorem framePreserved_step (orig cur : List TaskCard) (b : Bool)
    (h : framePreserved orig cur) :
    framePreserved orig (cur.map (updateCard b)) := by
  obtain ⟨hlen, hidx⟩ := h
  refine ⟨by simpa using hlen, ?_⟩
  intro i h1 h2
  have h2' : i < cur.length := by simpa using h2
  have hget : (cur.map (updateCard b)).get ⟨i, h2⟩ =
      updateCard b (cur.get ⟨i, h2'⟩) := by
    simp [List.get_eq_getElem]
  obtain ⟨hdone, heq, _⟩ := hidx i h1 h2'
  refine ⟨?_, ?_, ?_⟩
  · rw [hget, updateCard_done_flag, hdone]
  · intro hnd
    rw [hget, heq hnd, updateCard_of_not_done b _ hnd]
  · intro hne
    by_contra hnotdone
    have hnd : (orig.get ⟨i, h1⟩).done = false := by
      simpa using hnotdone
    exact hne (by rw [hget, heq hnd, updateCard_of_not_done b _ hnd])

theorem clicks_cards_frame (n : Nat) (s : AppState) (orig cur : List TaskCard)
    (hs : s.cards = some cur) (h : framePreserved orig cur) :
    ∃ cs, (clicks n s).cards = some cs ∧ framePreserved orig cs := by
  induction n generalizing s cur with
  | zero => exact ⟨cur, hs, h⟩
  | succ n ih =>
    rw [clicks]
    cases ht : s.toggle with
    | none =>
      exact ih (clickToggle s) cur (by rw [clickToggle_of_none s ht]; exact hs) h
    | some ctx =>
      refine ih (clickToggle s) (cur.map (updateCard (!ctx.hidden))) ?_
        (framePreserved_step orig cur (!ctx.hidden) h)
      rw [clickToggle_of_toggle s ctx ht]
      simp [hs]

/-- C5: a task card not marked completed at load is never affected by the
toggle, for any number of clicks: the card list keeps its length (so every
card keeps its DOM position), every card keeps its `done` flag, each
non-completed card is entirely unchanged, and any card the click handler
mutates was in the load-time completed set. -/
theorem non_completed_cards_untouched (p : Page) (tl : TaskListElem)
    (h : p.taskList = some tl) (n : Nat) :
    ∃ cs, (clicks n (load p)).cards = some cs ∧ framePreserved tl.cards cs := by
  refine clicks_cards_frame n (load p) tl.cards tl.cards ?_
    (framePreserved_refl tl.cards)
  rw [load_cards, h]
  rfl

/-- C5 witness: three clicks on the example page leave its non-completed
card exactly in place. -/
theorem non_completed_cards_untouched_witness :
    ∃ cs, (clicks 3 (load examplePage)).cards = some cs ∧
      framePreserved exampleTaskList.cards cs :=
  non_completed_cards_untouched examplePage exampleTaskList rfl 3

/-! ### Claim C4 -/

/-- A page whose single completed card carries a load-time inline display
override ("flex"): the renderer is free to emit inline styles, and this is
the case separating "clears the override" from "restores the display". -/
def overridePage : Page :=
  { flashes := []
    taskList := some
      { cards := [{ done := true, style := { display := "flex" } }]
        parent := some {} } }

/-- C4 counterexample: on `overridePage` the visible state after two clicks
differs from the state after zero clicks — the completed card's inline
display is "" (override cleared) instead of the original "flex", so the
effective display is the stylesheet value, not the load-time one. -/
theorem even_clicks_not_identity_counterexample :
    (clicks 2 (load overridePage)).cards.map
        (fun l => l.map (fun c => c.style.display)) ≠
      (clicks 0 (load overridePage)).cards.map
        (fun l => l.map (fun c => c.style.display)) := by
  decide

theorem map_eq_self_of_mem {α : Type} (l : List α) (f : α → α)
    (h : ∀ a ∈ l, f a = a) : l.map f = l := by
  induction l with
  | nil => rfl
  | cons a as ih =>
    rw [List.map_cons, h a (by simp), ih (fun x hx => h x (by simp [hx]))]

theorem update_true_then_false (l : List TaskCard)
    (h : ∀ c ∈ l, c.done = true → c.style.display = "") :
    (l.map (updateCard true)).map (updateCard false) = l := by
  rw [List.map_map]
  refine map_eq_self_of_mem l _ ?_
  intro c hc
  by_cases hd : c.done = true
  · have hdisp := h c hc hd
    obtain ⟨cdone, t1, t2, t3, t4, t5⟩ := c
    simp only at hd hdisp
    subst hd
    subst hdisp
    simp [Function.comp, updateCard]
  · have hd' : c.done = false := by simpa using hd
    simp [Function.comp, updateCard_of_not_done, hd']

theorem double_click_restore (s : AppState)
    (hcards : ∀ cs, s.cards = some cs → ∀ c ∈ cs, c.done = true →
      c.style.display = "")
    (htg : s.toggle = none ∨
      ∃ btn, s.toggle = some { hidden := false, button := btn } ∧
        btn.textContent = "Hide completed tasks") :
    clickToggle (clickToggle s) = s := by
  rcases htg with h | ⟨btn, h, hbl⟩
  · rw [clickToggle_of_none s h, clickToggle_of_none s h]
  · obtain ⟨fl, cso, pc, tms, tg, er⟩ := s
    obtain ⟨bt, btc, bcl, bst⟩ := btn
    have hbl' : btc = "Hide completed tasks" := hbl
    subst hbl'
    have h' : tg = some
        { hidden := false
          button := { typeAttr := bt, textContent := "Hide completed tasks"
                      className := bcl, style := bst } } := h
    subst h'
    have hcards' : ∀ cs, cso = some cs → ∀ c ∈ cs, c.done = true →
        c.style.display = "" := hcards
    cases cso with
    | none => simp [clickToggle]
    | some l =>
      have hl := update_true_then_false l (hcards' l rfl)
      simp [clickToggle, hl]

/-- C4 amended: clicking the toggle an even number of times yields a state
identical to zero clicks provided no completed card carries a load-time
inline display override (as for cards rendered without inline display); in
general the second click clears each completed card's inline display (sets
it to "") rather than restoring a pre-existing inline value, as the
counterexample shows.  The label is restored to "Hide completed tasks" in
all cases since the whole state is restored. -/
theorem even_clicks_identity_without_override (p : Page)
    (h : ∀ tl, p.taskList = some tl → ∀ c ∈ tl.cards, c.done = true →
      c.style.display = "")
    (k : Nat) :
    clicks (2 * k) (load p) = load p := by
  have hcards : ∀ cs, (load p).cards = some cs → ∀ c ∈ cs, c.done = true →
      c.style.display = "" := by
    rw [load_cards]
    cases htl : p.taskList with
    | none => simp
    | some tl =>
      intro cs hcs
      obtain rfl : tl.cards = cs := by simpa using hcs
      exact h tl htl
  have htg : (load p).toggle = none ∨
      ∃ btn, (load p).toggle = some { hidden := false, button := btn } ∧
        btn.textContent = "Hide completed tasks" := by
    cases htl : p.taskList with
    | none =>
      left
      rw [load_eq_of_no_taskList p htl]
    | some tl =>
      by_cases hd : ∃ c ∈ tl.cards, c.done = true
      · right
        refine ⟨newToggleButton, ?_, rfl⟩
        cases hp : tl.parent with
        | none => rw [load_eq_of_completed_no_parent p tl htl hp hd]
        | some par => rw [load_eq_of_completed_parent p tl par htl hp hd]
      · left
        have hz : ∀ c ∈ tl.cards, c.done = false := by
          intro c hc
          by_contra hcd
          exact hd ⟨c, hc, by simpa using hcd⟩
        rw [load_eq_of_no_completed p tl htl hz]
  induction k with
  | zero => rfl
  | succ k ih =>
    have h2 : 2 * (k + 1) = 2 * k + 1 + 1 := by ring
    rw [h2, clicks, clicks, double_click_restore (load p) hcards htg]
    exact ih

/-- C4 witness: four clicks on the example page (whose completed card has
no inline display override) give back exactly the loaded state. -/
theorem even_clicks_identity_without_override_witness :
    clicks (2 * 2) (load examplePage) = load examplePage :=
  even_clicks_identity_without_override examplePage
    (by
      intro tl htl c hc _
      obtain rfl : exampleTaskList = tl := by simpa [examplePage] using htl
      simp [exampleTaskList, examplePendingCard, exampleDoneCard] at hc
      rcases hc with rfl | rfl <;> rfl)
    2
